import Mathlib

/-!
Verification of the lbry_channel_mirror synchronization engine against its
design document.  The Python source available is `main.py` (the command-line
layer); the engine modules (`sync.py`, `lbry_client.py`, `config.py`) are not
present, so their operations are modelled from the design document where a
claim depends on them.  Every definition embedding code from `main.py` cites
the lines it embeds.
-/

namespace LbryMirror

/-- The in-memory config dictionary: Python `{"channel": ..., "mirror_ids": [...]}`.
A `none` field models an absent key. -/
structure Config where
  channel : Option String
  mirror_ids : Option (List String)
deriving DecidableEq

/-- Python `s.startswith(p)`, modelled on the underlying character lists. -/
def pyStartsWith (s p : String) : Bool :=
  p.data.isPrefixOf s.data

/-- main.py lines 94-98: if `args.channel` is set and starts with `"@"`, the
loaded config is replaced wholesale by `{"channel": args.channel}`; otherwise
`RuntimeError("Channel name must start with @")` is raised. -/
def applyChannelOverride (loaded : Config) (channel : Option String) : Except String Config :=
  match channel with
  | none => .ok loaded
  | some c =>
    if pyStartsWith c "@" then .ok { channel := some c, mirror_ids := none }
    else .error "Channel name must start with @"

/-- A subcommand run: `__create_subcommand` applies the channel override
(main.py lines 94-98) before returning; only then does the command body invoke
the engine (`sync.fetch`, `sync.pull`, `Config.init`, ...). An error in the
override propagates before any engine call. -/
def runCommand {α : Type} (loaded : Config) (channel : Option String)
    (engine : Config → α) : Except String α :=
  match applyChannelOverride loaded channel with
  | .ok cfg => .ok (engine cfg)
  | .error m => .error m

/-! ### --max-pages parsing (main.py lines 79-82) -/

/-- Result of the `--max-pages` conversion: either a parsed optional bound, or
an uncaught Python `ValueError` escaping the `try` block. -/
inductive MaxPagesResult where
  | parsed : Option Int → MaxPagesResult
  | valueError : MaxPagesResult
deriving DecidableEq

/-- Value of a decimal digit character, `none` for a non-digit. -/
def digitVal? (c : Char) : Option Nat :=
  if '0' ≤ c ∧ c ≤ '9' then some (c.toNat - '0'.toNat) else none

/-- Accumulate the value of a digit string left to right. -/
def digitsValAux : Nat → List Char → Option Nat
  | acc, [] => some acc
  | acc, c :: rest =>
    match digitVal? c with
    | some d => digitsValAux (acc * 10 + d) rest
    | none => none

/-- Value of a nonempty all-digit character list, `none` otherwise. -/
def digitsVal? : List Char → Option Nat
  | [] => none
  | l => digitsValAux 0 l

/-- Python whitespace characters accepted around an int literal. -/
def isPySpace (c : Char) : Bool :=
  c = ' ' || c = '\t' || c = '\n' || c = '\r'

/-- Strip leading and trailing whitespace from a character list. -/
def stripChars (l : List Char) : List Char :=
  (((l.dropWhile isPySpace).reverse).dropWhile isPySpace).reverse

/-- Python `int(s)` on a string: optional surrounding whitespace, an optional
sign, then decimal digits; `none` models the `ValueError` raised otherwise.
(Underscore digit grouping is not modelled.) -/
def pyIntParse (s : String) : Option Int :=
  match stripChars s.data with
  | '+' :: rest => (digitsVal? rest).map (fun n => (n : Int))
  | '-' :: rest => (digitsVal? rest).map (fun n => -(n : Int))
  | l => (digitsVal? l).map (fun n => (n : Int))

/-- main.py lines 79-82: `args.max_pages = int(args.max_pages)` guarded by
`except (TypeError, AttributeError): args.max_pages = None`.  An absent option
(`None`) makes `int` raise `TypeError`, which is caught, yielding `None`; a
non-numeric string makes `int` raise `ValueError`, which is NOT in the caught
tuple and escapes. -/
def parseMaxPages : Option String → MaxPagesResult
  | none => .parsed none
  | some s =>
    match pyIntParse s with
    | some n => .parsed (some n)
    | none => .valueError

/-! ### init and ConfigError (main.py lines 177-192) -/

/-- Modelled from the spec: `ConfigError` lives in the missing `config.py`
(config file missing, malformed, or channel invalid/unresolvable at init
time); only its message is observable here. -/
structure ConfigError where
  msg : String
deriving DecidableEq

/-- Outcome of the `init` command body: either `Config.init` returned a config,
or it raised `ConfigError` and the handler logged the error message. -/
inductive InitOutcome where
  | created : Config → InitOutcome
  | errorLogged : String → InitOutcome
deriving DecidableEq

/-- main.py lines 177-192: `init` builds its subcommand with a required
`--channel` and `load_config=False` (empty config), so the channel-override
check of lines 94-98 runs first; then `Config.init` is called exactly once
inside `try`, and `except Config.ConfigError as e: log.error(e)` logs the
error.  `Config.init` itself (in the missing `config.py`) is an oracle
parameter.  The returned `Nat` counts the `Config.init` calls made. -/
def initCommand (channelArg : String) (configInit : Except ConfigError Config) :
    Except String (InitOutcome × Nat) :=
  match applyChannelOverride ⟨none, none⟩ (some channelArg) with
  | .error m => .error m
  | .ok _ =>
    .ok (match configInit with
      | .ok cfg => (.created cfg, 1)
      | .error e => (.errorLogged e.msg, 1))

/-! ### Channel resolution in claim_search (main.py lines 156-163) -/

/-- Python exceptions that the embedded code can raise. -/
inductive PyError where
  | keyError : String → PyError
  | runtimeError : String → PyError
deriving DecidableEq

/-- The nested certificate object of a resolve response entry; `claim_id` may
be absent. -/
structure CertInfo where
  claim_id : Option String
deriving DecidableEq

/-- One entry of a resolve response; the `certificate` key may be absent. -/
structure ResolveEntry where
  certificate : Option CertInfo
deriving DecidableEq

/-- A resolve response: a Python dict from requested URL to entry. -/
abbrev ResolveResponse := List (String × ResolveEntry)

/-- Python dict subscription: `d[k]` raises `KeyError(k)` when absent. -/
def dictGet {α : Type} (d : List (String × α)) (k : String) : Except PyError α :=
  match d.lookup k with
  | some v => .ok v
  | none => .error (.keyError k)

/-- main.py line 159: `channel[channel_name]['certificate']['claim_id']`, each
subscription raising `KeyError` on an absent key. -/
def getChannelId (resp : ResolveResponse) (channel_name : String) :
    Except PyError String := do
  let entry ← dictGet resp channel_name
  match entry.certificate with
  | none => .error (.keyError "certificate")
  | some cert =>
    match cert.claim_id with
    | none => .error (.keyError "claim_id")
    | some cid => pure cid

/-- Plain-text rendering of a resolve response, standing in for the
`"{c}".format(c=channel)` interpolation of the raw response on line 161. -/
def rawRepr (resp : ResolveResponse) : String :=
  String.intercalate "; " (resp.map (fun kv =>
    kv.1 ++ " -> certificate " ++
      (match kv.2.certificate with
       | none => "absent"
       | some cert =>
         match cert.claim_id with
         | none => "present, claim_id absent"
         | some cid => "claim_id " ++ cid)))

/-- main.py lines 156-163: the channel branch of `claim_search` extracts the
channel id; on `KeyError` it logs `"Error in resolve response: "` with the
full raw response and raises
`RuntimeError("Could not find channel_id for <channel>")`.  Returns the
result together with the list of error-log lines emitted. -/
def claimSearchChannelId (resp : ResolveResponse) (channel_name : String) :
    Except PyError String × List String :=
  match getChannelId resp channel_name with
  | .ok cid => (.ok cid, [])
  | .error (.keyError _) =>
    (.error (.runtimeError ("Could not find channel_id for " ++ channel_name)),
     ["Error in resolve response: " ++ rawRepr resp])
  | .error e => (.error e, [])

/-! ### Pagination Iterator (spec section 4.1; lbry_client.py is not under src/) -/

/-- A remote page response: the `items` key may be absent (`none`), and an
optional continuation marker (next-page token) may be present. -/
structure Page where
  items : Option (List String)
  continuation : Option Nat
deriving DecidableEq

/-- Iterator state: pages produced so far and whether iteration has stopped. -/
structure PagState where
  produced : Nat
  stopped : Bool
deriving DecidableEq

/-- What one `next()` call yields: a page of items, clean exhaustion, or the
`MalformedResponse` failure (never produced for a well-formed `Page`). -/
inductive NextResult where
  | page : List String → NextResult
  | exhausted : NextResult
  | malformed : NextResult
deriving DecidableEq

/-- Stopping rule 1 of the iterator: the bound is set and the number of pages
already produced equals it. -/
def boundReached : Option Nat → Nat → Bool
  | none, _ => false
  | some n, produced => produced == n

/-- Modelled from the spec: one `next()` call of the Pagination Iterator
(section 4.1), whose implementation in `lbry_client.py` is not under src/.
Termination conditions in priority order: the bound is reached (stop before
issuing a request); the response has no `items` key or an empty items list
(stop, clean exhaustion, not an error, regardless of any continuation
marker); otherwise produce the page and continue.  `responses` maps the page
index to the remote response; the returned `Nat` is the number of remote
requests this call issued (0 or 1). -/
def pagNext (responses : Nat → Page) (bound : Option Nat) (s : PagState) :
    NextResult × PagState × Nat :=
  if s.stopped then (.exhausted, s, 0)
  else if boundReached bound s.produced then (.exhausted, { s with stopped := true }, 0)
  else
    match (responses s.produced).items with
    | none => (.exhausted, { s with stopped := true }, 1)
    | some [] => (.exhausted, { s with stopped := true }, 1)
    | some items => (.page items, { s with produced := s.produced + 1 }, 1)

/-- Run the iterator for `n` calls to `next()` from the initial state,
returning the final state and the total number of remote requests issued. -/
def pagRun (responses : Nat → Page) (bound : Option Nat) : Nat → PagState × Nat
  | 0 => (⟨0, false⟩, 0)
  | n + 1 =>
    let sr := pagRun responses bound n
    let step := pagNext responses bound sr.1
    (step.2.1, sr.2 + step.2.2)

/-- Run the iterator for `n` calls to `next()`, collecting the item batches
produced, in order. -/
def pagRunPages (responses : Nat → Page) (bound : Option Nat) :
    Nat → PagState × List (List String)
  | 0 => (⟨0, false⟩, [])
  | n + 1 =>
    let sp := pagRunPages responses bound n
    match pagNext responses bound sp.1 with
    | (NextResult.page items, s2, _) => (s2, sp.2 ++ [items])
    | (_, s2, _) => (s2, sp.2)

/-- main.py lines 165-167: `items = []` followed by
`for claim in claim_search(...): items.extend(claim['items'])`. -/
def flattenPages (pages : List (List String)) : List String :=
  pages.foldl (fun items batch => items ++ batch) []

/-- The item sequence the `claim_search` channel branch accumulates: the
batches yielded by the bounded paginated search, flattened in order by the
loop of main.py lines 165-167. -/
def claim_search_items (responses : Nat → Page) (bound : Option Nat) (n : Nat) :
    List String :=
  flattenPages (pagRunPages responses bound n).2

/-! ### Fetch engine (spec section 4.2; sync.py is not under src/) -/

/-- Modelled from the spec: one page step of `sync.fetch` (section 4.2) — the
claim ids of a page are compared against the ids already present and the new
ones are appended in the order first observed, never reordered. -/
def appendNewIds (acc : List String) (pageIds : List String) : List String :=
  pageIds.foldl (fun a c => if c ∈ a then a else a ++ [c]) acc

/-- Modelled from the spec: the `mirror_ids` merging of `sync.fetch`
(section 4.2), whose implementation in `sync.py` is not under src/: starting
from the current `mirror_ids` and given the pages of claim ids the paginated
claim search returns for the fixed remote claim set, each page's new ids are
appended in order of first observation. -/
def fetch (mirrorIds : List String) (pages : List (List String)) : List String :=
  pages.foldl appendNewIds mirrorIds

/-- Scan `ids` keeping, in order of first observation, those not already in
`m` and not seen earlier in the scan, accumulating onto `ns`. -/
def firstObservedAux (m ns ids : List String) : List String :=
  ids.foldl (fun ns c => if c ∈ m ++ ns then ns else ns ++ [c]) ns

/-- The ids of `ids` that are new with respect to `m`, in order of first
observation. -/
def firstObserved (m ids : List String) : List String :=
  firstObservedAux m [] ids

/-! ### Pull engine (spec section 4.3; sync.py is not under src/) -/

/-- A per-claim download status record as reported by the remote service. -/
structure DownloadRecord where
  claim_id : String
  download_path : String
  total_bytes : Nat
  blobs_remaining : Nat
deriving DecidableEq

/-- One reported entry of a pull run: a status record, or a per-item error
(claim id and error message). -/
inductive PullItem where
  | record : DownloadRecord → PullItem
  | itemError : String → String → PullItem
deriving DecidableEq

/-- Modelled from the spec: the per-claim step of `sync.pull` (section 4.3) —
query the download status of one claim; a failure is reported as a per-item
error. -/
def pullReport (status : String → Except String DownloadRecord) (c : String) :
    PullItem :=
  match status c with
  | .ok r => .record r
  | .error e => .itemError c e

/-- Modelled from the spec: `sync.pull` (section 4.3), whose implementation in
`sync.py` is not under src/: for each claim id in `mirror_ids` in order, query
its status and report a record or a per-item error, never aborting the rest of
the run. -/
def pull (status : String → Except String DownloadRecord)
    (mirrorIds : List String) : List PullItem :=
  mirrorIds.foldl (fun acc c => acc ++ [pullReport status c]) []

/-- A concrete status oracle: the lookup for claim `"x"` fails with a
transient endpoint error, every other claim reports a complete download. -/
def statusFailingAtX : String → Except String DownloadRecord :=
  fun c =>
    if c = "x" then .error "endpoint unavailable"
    else .ok ⟨c, "/mirror/" ++ c, 7, 0⟩

/-- Every failure of the nested certificate lookup is a `KeyError`. -/
theorem getChannelId_error_shape (resp : ResolveResponse) (name : String)
    (e : PyError) (h : getChannelId resp name = .error e) :
    ∃ k, e = PyError.keyError k := by
  unfold getChannelId dictGet at h
  rcases hlook : resp.lookup name with _ | entry
  · rw [hlook] at h
    simp [Bind.bind, Except.bind] at h
    exact ⟨name, h.symm⟩
  · rw [hlook] at h
    simp [Bind.bind, Except.bind] at h
    rcases hcert : entry.certificate with _ | cert
    · rw [hcert] at h
      simp at h
      exact ⟨"certificate", h.symm⟩
    · rw [hcert] at h
      simp at h
      rcases hcid : cert.claim_id with _ | cid
      · rw [hcid] at h
        simp at h
        exact ⟨"claim_id", h.symm⟩
      · rw [hcid] at h
        simp [pure, Except.pure] at h

end LbryMirror

namespace LbryMirror

/-- Claim C9: for every command accepting a `--channel` override, a supplied
channel starting with `@` replaces the in-memory config wholesale by a config
holding only that channel key (every previously loaded field, `mirror_ids`
included, is discarded); a supplied channel not starting with `@` makes the
command fail with `RuntimeError("Channel name must start with @")` before any
engine operation runs (the result does not depend on the engine). -/
theorem channel_override_frame {α : Type} (loaded : Config) (c : String)
    (engine : Config → α) :
    (pyStartsWith c "@" = true →
      runCommand loaded (some c) engine =
        .ok (engine { channel := some c, mirror_ids := none })) ∧
    (pyStartsWith c "@" = false →
      runCommand loaded (some c) engine = .error "Channel name must start with @") := by
  constructor
  · intro h
    simp [runCommand, applyChannelOverride, h]
  · intro h
    simp [runCommand, applyChannelOverride, h]

/-- Witness for C9 at a concrete loaded config with a nonempty `mirror_ids`:
the `@new` override discards it; the `bad` override fails. -/
theorem channel_override_frame_witness :
    runCommand ⟨some "@old", some ["a", "b"]⟩ (some "@new") (fun cfg => cfg) =
      .ok ⟨some "@new", none⟩ ∧
    runCommand ⟨some "@old", some ["a", "b"]⟩ (some "bad") (fun cfg => cfg) =
      .error "Channel name must start with @" :=
  ⟨(channel_override_frame ⟨some "@old", some ["a", "b"]⟩ "@new" (fun cfg => cfg)).1
      (by decide),
   (channel_override_frame ⟨some "@old", some ["a", "b"]⟩ "bad" (fun cfg => cfg)).2
      (by decide)⟩

/-- Claim C10: parsing `--max-pages` is total only for absent values: an
unsupplied option yields `None` (unbounded) because the `TypeError` from
`int(None)` is caught, a decimal integer string yields that integer, and a
supplied non-numeric string raises an uncaught `ValueError`, since only
`TypeError` and `AttributeError` are caught around the conversion. -/
theorem max_pages_parsing (s : String) (n : Int) :
    parseMaxPages none = .parsed none ∧
    (pyIntParse s = some n → parseMaxPages (some s) = .parsed (some n)) ∧
    (pyIntParse s = none → parseMaxPages (some s) = .valueError) := by
  refine ⟨rfl, ?_, ?_⟩
  · intro h
    simp [parseMaxPages, h]
  · intro h
    simp [parseMaxPages, h]

/-- Witness for C10: the absent option yields `None`, the decimal string
`"12"` yields `12`, and the non-numeric string `"abc"` escapes as a
`ValueError`. -/
theorem max_pages_parsing_witness :
    parseMaxPages none = .parsed none ∧
    parseMaxPages (some "12") = .parsed (some 12) ∧
    parseMaxPages (some "abc") = .valueError :=
  ⟨(max_pages_parsing "12" 12).1,
   (max_pages_parsing "12" 12).2.1 (by decide),
   (max_pages_parsing "abc" 0).2.2 (by decide)⟩

/-- Claim C3: a `ConfigError` is fatal to the invoking command and is never
retried automatically: when `Config.init` raises `ConfigError`, the `init`
command makes exactly one `Config.init` attempt, creates no config, and
reports the error (it is logged, not swallowed). -/
theorem config_error_fatal (channelArg : String) (e : ConfigError)
    (h : pyStartsWith channelArg "@" = true) :
    initCommand channelArg (.error e) = .ok (.errorLogged e.msg, 1) ∧
    ∀ cfg k, initCommand channelArg (.error e) ≠ .ok (.created cfg, k) := by
  constructor
  · simp [initCommand, applyChannelOverride, h]
  · intro cfg k
    simp [initCommand, applyChannelOverride, h]

/-- Witness for C3 at channel `@Example` and a concrete `ConfigError`. -/
theorem config_error_fatal_witness :
    initCommand "@Example" (.error ⟨"config file already exists"⟩) =
      .ok (.errorLogged "config file already exists", 1) ∧
    ∀ cfg k, initCommand "@Example" (.error ⟨"config file already exists"⟩) ≠
      .ok (.created cfg, k) :=
  config_error_fatal "@Example" ⟨"config file already exists"⟩ (by decide)

/-- Claim C4: when the resolve response lacks the nested certificate claim-id
field, the channel branch of `claim_search` fails with the dedicated
channel-resolution failure — the `RuntimeError` naming the channel raised on
line 162, the spec's `ChannelResolutionError` — and not with the generic
`KeyError` lookup error, and it surfaces the full raw resolution response in
the error log for diagnosis. -/
theorem channel_resolution_failure (resp : ResolveResponse) (name : String)
    (e : PyError) (h : getChannelId resp name = .error e) :
    (claimSearchChannelId resp name).1 =
      .error (.runtimeError ("Could not find channel_id for " ++ name)) ∧
    (∀ k, (claimSearchChannelId resp name).1 ≠ .error (.keyError k)) ∧
    (claimSearchChannelId resp name).2 =
      ["Error in resolve response: " ++ rawRepr resp] := by
  obtain ⟨k, rfl⟩ := getChannelId_error_shape resp name e h
  refine ⟨?_, ?_, ?_⟩
  · simp [claimSearchChannelId, h]
  · intro k'
    simp [claimSearchChannelId, h]
  · simp [claimSearchChannelId, h]

/-- Witness for C4: a resolve response whose entry for `@chan` has no
certificate field at all. -/
theorem channel_resolution_failure_witness :
    (claimSearchChannelId [("@chan", ⟨none⟩)] "@chan").1 =
      .error (.runtimeError ("Could not find channel_id for " ++ "@chan")) ∧
    (∀ k, (claimSearchChannelId [("@chan", ⟨none⟩)] "@chan").1 ≠
      .error (.keyError k)) ∧
    (claimSearchChannelId [("@chan", ⟨none⟩)] "@chan").2 =
      ["Error in resolve response: " ++ rawRepr [("@chan", ⟨none⟩)]] :=
  channel_resolution_failure [("@chan", ⟨none⟩)] "@chan"
    (.keyError "certificate") rfl

/-- A stopped iterator answers `exhausted` and issues no further requests. -/
theorem pagNext_of_stopped (responses : Nat → Page) (bound : Option Nat)
    (s : PagState) (h : s.stopped = true) :
    pagNext responses bound s = (.exhausted, s, 0) := by
  simp [pagNext, h]

/-- Claim C5: the pagination iterator terminates whenever a page response has
an empty items list or no items key at all, regardless of any continuation
marker present (none of the hypotheses constrain `continuation`): the call
yields clean exhaustion — not the `MalformedResponse` error — the iterator
enters the stopped state, and a stopped iterator never issues another remote
request. -/
theorem pagination_empty_terminates (responses : Nat → Page) (bound : Option Nat)
    (s : PagState) (hs : s.stopped = false)
    (hb : boundReached bound s.produced = false)
    (hi : (responses s.produced).items = none ∨
      (responses s.produced).items = some []) :
    (pagNext responses bound s).1 = .exhausted ∧
    (pagNext responses bound s).1 ≠ .malformed ∧
    (pagNext responses bound s).2.1.stopped = true ∧
    ∀ s' : PagState, s'.stopped = true →
      pagNext responses bound s' = (.exhausted, s', 0) := by
  have hstop : ∀ s' : PagState, s'.stopped = true →
      pagNext responses bound s' = (.exhausted, s', 0) :=
    fun s' h => pagNext_of_stopped responses bound s' h
  rcases hi with hi | hi <;>
    exact ⟨by simp [pagNext, hs, hb, hi], by simp [pagNext, hs, hb, hi],
      by simp [pagNext, hs, hb, hi], hstop⟩

/-- Witness for C5: a response with an empty items list but a continuation
marker still present terminates the fresh iterator. -/
theorem pagination_empty_terminates_witness :
    ((⟨0, false⟩ : PagState).stopped = false ∧
      boundReached none (⟨0, false⟩ : PagState).produced = false) ∧
    ((pagNext (fun _ => ⟨some [], some 7⟩) none ⟨0, false⟩).1 = .exhausted ∧
     (pagNext (fun _ => ⟨some [], some 7⟩) none ⟨0, false⟩).1 ≠ .malformed ∧
     (pagNext (fun _ => ⟨some [], some 7⟩) none ⟨0, false⟩).2.1.stopped = true ∧
     ∀ s' : PagState, s'.stopped = true →
       pagNext (fun _ => ⟨some [], some 7⟩) none s' = (.exhausted, s', 0)) :=
  ⟨⟨rfl, rfl⟩,
   pagination_empty_terminates (fun _ => ⟨some [], some 7⟩) none ⟨0, false⟩
     rfl rfl (Or.inr rfl)⟩

/-- Invariant of a bounded run: while running, the request count equals the
number of pages produced and stays within the bound; once stopped, the
request count is within the bound. -/
theorem pagRun_bound_inv (responses : Nat → Page) (k : Nat) : ∀ n : Nat,
    ((pagRun responses (some k) n).1.stopped = false →
      (pagRun responses (some k) n).2 = (pagRun responses (some k) n).1.produced ∧
      (pagRun responses (some k) n).1.produced ≤ k) ∧
    ((pagRun responses (some k) n).1.stopped = true →
      (pagRun responses (some k) n).2 ≤ k) := by
  intro n
  induction n with
  | zero => simp [pagRun]
  | succ n ih =>
    rcases hrun : pagRun responses (some k) n with ⟨s, r⟩
    rw [hrun] at ih
    by_cases hs : s.stopped
    · have hr : r ≤ k := ih.2 hs
      simp [pagRun, hrun, pagNext, hs, hr]
    · have hs' : s.stopped = false := by simpa using hs
      obtain ⟨hre, hpk⟩ := ih.1 hs'
      have hre2 : r = s.produced := hre
      have hpk2 : s.produced ≤ k := hpk
      by_cases hbr : boundReached (some k) s.produced
      · have : r ≤ k := by omega
        simp [pagRun, hrun, pagNext, hs', hbr, this]
      · have hne : s.produced ≠ k := by
          simpa [boundReached] using hbr
        have hlt : s.produced < k := lt_of_le_of_ne hpk2 hne
        have hsk : s.produced + 1 ≤ k := Nat.succ_le_of_lt hlt
        rcases hit : (responses s.produced).items with _ | items
        · have : r + 1 ≤ k := by omega
          simp [pagRun, hrun, pagNext, hs', hbr, hit, this]
        · rcases items with _ | ⟨x, xs⟩
          · have : r + 1 ≤ k := by omega
            simp [pagRun, hrun, pagNext, hs', hbr, hit, this]
          · constructor
            · intro _
              constructor
              · simp [pagRun, hrun, pagNext, hs', hbr, hit]
                omega
              · simp [pagRun, hrun, pagNext, hs', hbr, hit, hsk]
            · intro habs
              simp [pagRun, hrun, pagNext, hs', hbr, hit, hs] at habs

/-- Claim C7: for every page bound `k` supplied to the pagination iterator,
at most `k` remote page requests are issued over any number of `next()`
calls, even if more pages exist remotely. -/
theorem bounded_page_requests (responses : Nat → Page) (k n : Nat) :
    (pagRun responses (some k) n).2 ≤ k := by
  have h := pagRun_bound_inv responses k n
  cases hs : (pagRun responses (some k) n).1.stopped
  · obtain ⟨hre, hpk⟩ := h.1 hs
    rw [hre]
    exact hpk
  · exact h.2 hs

/-- The flattening loop computes the concatenation of the batches. -/
theorem flattenPages_eq_join (pages : List (List String)) :
    flattenPages pages = pages.flatten := by
  suffices h : ∀ (L : List (List String)) (acc : List String),
      L.foldl (fun items batch => items ++ batch) acc = acc ++ L.flatten by
    simpa using h pages []
  intro L
  induction L with
  | nil => intro acc; simp
  | cons p ps ih => intro acc; simp [ih, List.append_assoc]

/-- Occurrence counts distribute over concatenation of batches. -/
theorem join_count (L : List (List String)) (x : String) :
    L.flatten.count x = (L.map (List.count x)).sum := by
  induction L with
  | nil => simp
  | cons p ps ih => simp [List.count_append, ih]

/-- Claim C8: when the search utility filters by channel id, the pages
produced by the bounded paginated search are flattened into a single ordered
sequence — all items of page 1 in order, then page 2, and so on — with no
merging and no deduplication (every occurrence of every item is preserved,
counted per batch). -/
theorem claim_search_flattens (responses : Nat → Page) (bound : Option Nat)
    (n : Nat) :
    claim_search_items responses bound n =
      ((pagRunPages responses bound n).2).flatten ∧
    ∀ x : String, (claim_search_items responses bound n).count x =
      (((pagRunPages responses bound n).2).map (List.count x)).sum := by
  constructor
  · unfold claim_search_items
    exact flattenPages_eq_join _
  · intro x
    unfold claim_search_items
    rw [flattenPages_eq_join]
    exact join_count _ x

/-- Unfolding one id of a page step. -/
theorem appendNewIds_cons (a : List String) (c : String) (ids : List String) :
    appendNewIds a (c :: ids) = appendNewIds (if c ∈ a then a else a ++ [c]) ids :=
  rfl

/-- Ids already accumulated survive a page step. -/
theorem mem_appendNewIds_left {x : String} {a : List String} (ids : List String)
    (h : x ∈ a) : x ∈ appendNewIds a ids := by
  induction ids generalizing a with
  | nil => exact h
  | cons c ids ih =>
    by_cases hc : c ∈ a
    · rw [appendNewIds_cons, if_pos hc]
      exact ih h
    · rw [appendNewIds_cons, if_neg hc]
      exact ih (List.mem_append_left _ h)

/-- Every id of the page is present after the page step. -/
theorem mem_appendNewIds_right {x : String} {a : List String} {ids : List String}
    (h : x ∈ ids) : x ∈ appendNewIds a ids := by
  induction ids generalizing a with
  | nil => cases h
  | cons c ids ih =>
    rcases List.mem_cons.mp h with rfl | hx
    · by_cases hc : x ∈ a
      · rw [appendNewIds_cons, if_pos hc]
        exact mem_appendNewIds_left ids hc
      · rw [appendNewIds_cons, if_neg hc]
        exact mem_appendNewIds_left ids (by simp)
    · by_cases hc : c ∈ a
      · rw [appendNewIds_cons, if_pos hc]
        exact ih hx
      · rw [appendNewIds_cons, if_neg hc]
        exact ih hx

/-- A page whose ids are all already present changes nothing. -/
theorem appendNewIds_eq_self {a : List String} {ids : List String}
    (h : ∀ x ∈ ids, x ∈ a) : appendNewIds a ids = a := by
  induction ids with
  | nil => rfl
  | cons c ids ih =>
    have hc : c ∈ a := h c (by simp)
    rw [appendNewIds_cons, if_pos hc]
    exact ih (fun x hx => h x (by simp [hx]))

/-- Unfolding one page of a fetch run. -/
theorem fetch_cons (m : List String) (p : List String) (pages : List (List String)) :
    fetch m (p :: pages) = fetch (appendNewIds m p) pages :=
  rfl

/-- Ids present before a fetch run are present after it. -/
theorem mem_fetch_left {x : String} {m : List String} (pages : List (List String))
    (h : x ∈ m) : x ∈ fetch m pages := by
  induction pages generalizing m with
  | nil => exact h
  | cons p ps ih =>
    rw [fetch_cons]
    exact ih (mem_appendNewIds_left p h)

/-- Every id observed on some page is present after the fetch run. -/
theorem mem_fetch_pages {x : String} {m : List String} {p : List String}
    {pages : List (List String)} (hp : p ∈ pages) (hx : x ∈ p) :
    x ∈ fetch m pages := by
  induction pages generalizing m with
  | nil => cases hp
  | cons q ps ih =>
    rw [fetch_cons]
    rcases List.mem_cons.mp hp with rfl | hps
    · exact mem_fetch_left ps (mem_appendNewIds_right hx)
    · exact ih hps

/-- A fetch run over pages whose ids are all already known changes nothing. -/
theorem fetch_eq_self {m : List String} {pages : List (List String)}
    (h : ∀ p ∈ pages, ∀ x ∈ p, x ∈ m) : fetch m pages = m := by
  induction pages with
  | nil => rfl
  | cons p ps ih =>
    rw [fetch_cons, appendNewIds_eq_self (h p (by simp))]
    exact ih (fun q hq x hx => h q (by simp [hq]) x hx)

/-- Claim C1: fetch is idempotent — for any starting `mirror_ids` and any
fixed remote claim set (hence the same pages on both runs), running fetch a
second time leaves `mirror_ids` identical (same order, same membership) to
the result of the first run. -/
theorem fetch_idempotent (m : List String) (pages : List (List String)) :
    fetch (fetch m pages) pages = fetch m pages :=
  fetch_eq_self (fun _ hp _ hx => mem_fetch_pages hp hx)

/-- A page step preserves freedom from duplicates. -/
theorem appendNewIds_nodup {a : List String} (ids : List String)
    (h : a.Nodup) : (appendNewIds a ids).Nodup := by
  induction ids generalizing a with
  | nil => exact h
  | cons c ids ih =>
    by_cases hc : c ∈ a
    · rw [appendNewIds_cons, if_pos hc]
      exact ih h
    · rw [appendNewIds_cons, if_neg hc]
      refine ih ?_
      simp [List.nodup_append, h, hc]

/-- A fetch run preserves freedom from duplicates. -/
theorem fetch_nodup {m : List String} (pages : List (List String))
    (h : m.Nodup) : (fetch m pages).Nodup := by
  induction pages generalizing m with
  | nil => exact h
  | cons p ps ih =>
    rw [fetch_cons]
    exact ih (appendNewIds_nodup p h)

/-- A page step only ever appends at the end. -/
theorem appendNewIds_extends (a ids : List String) :
    ∃ t, a ++ t = appendNewIds a ids := by
  induction ids generalizing a with
  | nil => exact ⟨[], by simp [appendNewIds]⟩
  | cons c ids ih =>
    by_cases hc : c ∈ a
    · rw [appendNewIds_cons, if_pos hc]
      exact ih a
    · rw [appendNewIds_cons, if_neg hc]
      obtain ⟨t, ht⟩ := ih (a ++ [c])
      exact ⟨[c] ++ t, by rw [← List.append_assoc]; exact ht⟩

/-- A fetch run only ever appends at the end. -/
theorem fetch_extends (m : List String) (pages : List (List String)) :
    ∃ t, m ++ t = fetch m pages := by
  induction pages generalizing m with
  | nil => exact ⟨[], by simp [fetch]⟩
  | cons p ps ih =>
    rw [fetch_cons]
    obtain ⟨t, ht⟩ := appendNewIds_extends m p
    obtain ⟨u, hu⟩ := ih (appendNewIds m p)
    exact ⟨t ++ u, by rw [← List.append_assoc, ht]; exact hu⟩

/-- Unfolding one id of the first-observation scan. -/
theorem firstObservedAux_cons (m ns : List String) (c : String)
    (ids : List String) :
    firstObservedAux m ns (c :: ids) =
      firstObservedAux m (if c ∈ m ++ ns then ns else ns ++ [c]) ids :=
  rfl

/-- A page step decomposes as the known ids followed by the scan for new
ids in order of first observation. -/
theorem appendNewIds_decomp (m : List String) (ids : List String) :
    ∀ ns, appendNewIds (m ++ ns) ids = m ++ firstObservedAux m ns ids := by
  induction ids with
  | nil => intro ns; rfl
  | cons c ids ih =>
    intro ns
    rw [appendNewIds_cons, firstObservedAux_cons]
    by_cases hc : c ∈ m ++ ns
    · rw [if_pos hc, if_pos hc]
      exact ih ns
    · rw [if_neg hc, if_neg hc, List.append_assoc]
      exact ih (ns ++ [c])

/-- A page step is exactly: keep the known ids, then append the new ids in
order of first observation. -/
theorem appendNewIds_firstObserved (m ids : List String) :
    appendNewIds m ids = m ++ firstObserved m ids := by
  have h := appendNewIds_decomp m ids []
  rw [List.append_nil] at h
  exact h

/-- Folding the page steps over the whole run equals a single step applied to
the concatenation of the pages. -/
theorem fetch_join (m : List String) (pages : List (List String)) :
    fetch m pages = appendNewIds m pages.flatten := by
  induction pages generalizing m with
  | nil => rfl
  | cons p ps ih =>
    rw [fetch_cons, ih,
      show (p :: ps).flatten = p ++ ps.flatten from rfl]
    simp [appendNewIds, List.foldl_append]

/-- Claim C2: after every fetch run, `mirror_ids` has no repeated entries
(given it had none before, as the config invariant guarantees), the entries
present before the run stand unchanged at the front — keeping their relative
order — and the newly discovered ids are appended at the end in the order
first observed across the pages. -/
theorem fetch_nodup_order (m : List String) (pages : List (List String))
    (h : m.Nodup) :
    (fetch m pages).Nodup ∧
    (∃ t, m ++ t = fetch m pages) ∧
    fetch m pages = m ++ firstObserved m pages.flatten := by
  refine ⟨fetch_nodup pages h, fetch_extends m pages, ?_⟩
  rw [fetch_join, appendNewIds_firstObserved]

/-- Witness for C2 at the scenario of the design document:
`mirror_ids = ["a","b"]` and remote pages `[["a","c"],["d"]]` yield
`["a","b","c","d"]`. -/
theorem fetch_nodup_order_witness :
    (["a", "b"] : List String).Nodup ∧
    ((fetch ["a", "b"] [["a", "c"], ["d"]]).Nodup ∧
     (∃ t, ["a", "b"] ++ t = fetch ["a", "b"] [["a", "c"], ["d"]]) ∧
     fetch ["a", "b"] [["a", "c"], ["d"]] =
       ["a", "b"] ++ firstObserved ["a", "b"] [["a", "c"], ["d"]].flatten) :=
  ⟨by decide, fetch_nodup_order ["a", "b"] [["a", "c"], ["d"]] (by decide)⟩

/-- The pull loop reports one entry per claim id, in order. -/
theorem pull_eq_map (status : String → Except String DownloadRecord)
    (mirrorIds : List String) :
    pull status mirrorIds = mirrorIds.map (pullReport status) := by
  suffices h : ∀ (ids : List String) (acc : List PullItem),
      ids.foldl (fun acc c => acc ++ [pullReport status c]) acc =
        acc ++ ids.map (pullReport status) by
    simpa [pull] using h mirrorIds []
  intro ids
  induction ids with
  | nil => intro acc; simp
  | cons c cs ih => intro acc; simp [ih, List.append_assoc]

/-- Claim C6: a failure fetching the status of one claim is reported as a
per-item error and does not abort the remaining claims: with
`mirror_ids = [X, Y, Z]` and the status lookup failing for `X`, pull still
reports the results for `Y` and `Z`, and in general every claim id of
`mirror_ids` receives exactly one report. -/
theorem pull_continue_on_error (status : String → Except String DownloadRecord)
    (X Y Z e : String) (hX : status X = .error e) :
    pull status [X, Y, Z] =
      [.itemError X e, pullReport status Y, pullReport status Z] ∧
    ∀ mirrorIds : List String, (pull status mirrorIds).length = mirrorIds.length := by
  constructor
  · rw [pull_eq_map]
    simp [pullReport, hX]
  · intro ids
    rw [pull_eq_map]
    simp

/-- Witness for C6: the status oracle failing at `"x"` still yields reports
for `"y"` and `"z"`. -/
theorem pull_continue_on_error_witness :
    pull statusFailingAtX ["x", "y", "z"] =
      [.itemError "x" "endpoint unavailable",
       pullReport statusFailingAtX "y", pullReport statusFailingAtX "z"] ∧
    ∀ mirrorIds : List String,
      (pull statusFailingAtX mirrorIds).length = mirrorIds.length :=
  pull_continue_on_error statusFailingAtX "x" "y" "z" "endpoint unavailable"
    (by simp [statusFailingAtX])

end LbryMirror
